import Mathlib

/-!
# Box-breathing timer and offline cache: a verification development

Shallow embedding of `src/app.js` (the phase timer controller) and
`src/service-worker.js` (the offline asset cache).

Conventions of the embedding

* The module-level `let` variables of `app.js` become the fields of `State`.
  JavaScript numbers that hold second counts are modelled as mathematical
  integers (`Int`); the `%` operator is the truncating remainder `Int.tmod`.
* The browser timer table becomes the field `timers`: the list of pending
  `setTimeout` / `setInterval` registrations.  Handles are the positive
  integers the browser hands out (`lastId + 1`), so a stored handle is truthy
  exactly when the variable is not `null`; `null` is `none`.
* DOM writes (text content, class lists, styles) and `console` output are not
  part of the controller state and are left out.
-/

namespace BoxBreathing

/-! ## Phase timer controller (`src/app.js`) -/

/-- The functions of `app.js` that are handed to `setTimeout` / `setInterval`.
`getReady` is the anonymous arrow function of `startExercise`. -/
inductive Callback where
  | getReady
  | nextPhase
  | phaseTick
  | totalTimeTick
  deriving DecidableEq, Repr

/-- One pending registration in the browser timer table. -/
structure Timer where
  id : Nat
  callback : Callback
  delayMs : Int
  repeating : Bool
  deriving DecidableEq, Repr

/-- The state variables of `app.js` (lines 17-27) together with the timer
table of the page. -/
structure State where
  phaseDuration : Int
  timeLimit : Option Int
  totalTimeElapsed : Int
  phaseTimeRemaining : Int
  currentPhaseIndex : Int
  phaseIntervalId : Option Nat
  totalTimerIntervalId : Option Nat
  animationTimeoutId : Option Nat
  isEndingSequence : Bool
  timers : List Timer
  lastId : Nat
  deriving DecidableEq, Repr

/-- The values the state variables are declared with. -/
def initialState : State :=
  { phaseDuration := 4
    timeLimit := none
    totalTimeElapsed := 0
    phaseTimeRemaining := 0
    currentPhaseIndex := -1
    phaseIntervalId := none
    totalTimerIntervalId := none
    animationTimeoutId := none
    isEndingSequence := false
    timers := []
    lastId := 0 }

/-- The constant `phases`. -/
def phases : List String := ["inhale", "hold", "exhale", "wait"]

/-- Array indexing `phases[i]`: `undefined` (here `none`) outside the array. -/
def phaseAt (i : Int) : Option String :=
  if 0 ≤ i then phases.get? i.toNat else none

/-- Browser `setTimeout(cb, delay)`: registers a one-shot timer under a fresh
positive handle and returns the handle. -/
def setTimeout (cb : Callback) (delay : Int) (s : State) : Nat × State :=
  (s.lastId + 1,
    { s with
      timers := s.timers ++ [{ id := s.lastId + 1, callback := cb, delayMs := delay, repeating := false }]
      lastId := s.lastId + 1 })

/-- Browser `setInterval(cb, delay)`: registers a repeating timer under a fresh
positive handle and returns the handle. -/
def setInterval (cb : Callback) (delay : Int) (s : State) : Nat × State :=
  (s.lastId + 1,
    { s with
      timers := s.timers ++ [{ id := s.lastId + 1, callback := cb, delayMs := delay, repeating := true }]
      lastId := s.lastId + 1 })

/-- Browser `clearTimeout(id)` / `clearInterval(id)`: the registration with that
handle, if any, is removed from the timer table. -/
def clearTimer (id : Nat) (s : State) : State :=
  { s with timers := s.timers.filter (fun t => t.id ≠ id) }

/-- The statement form `if (handle) clearTimeout(handle);`. -/
def clearIfSet (h : Option Nat) (s : State) : State :=
  match h with
  | some id => clearTimer id s
  | none => s

/-- Function `stopExercise` (lines 177-210). -/
def stopExercise (s : State) : State :=
  let s := clearIfSet s.phaseIntervalId s
  let s := clearIfSet s.totalTimerIntervalId s
  let s := clearIfSet s.animationTimeoutId s
  { s with
    phaseIntervalId := none
    totalTimerIntervalId := none
    animationTimeoutId := none
    timeLimit := none
    isEndingSequence := false
    currentPhaseIndex := -1 }

/-- Function `nextPhase` (lines 72-95). -/
def nextPhase (s : State) : State :=
  if s.isEndingSequence = true ∧ phaseAt s.currentPhaseIndex = some "exhale" then
    stopExercise s
  else
    let s := { s with currentPhaseIndex := Int.tmod (s.currentPhaseIndex + 1) (phases.length : Int) }
    let s := { s with phaseTimeRemaining := s.phaseDuration }
    let s := clearIfSet s.animationTimeoutId s
    let r := setTimeout Callback.nextPhase (s.phaseDuration * 1000) s
    { r.2 with animationTimeoutId := some r.1 }

/-- Function `phaseTick` (lines 100-106). -/
def phaseTick (s : State) : State :=
  if s.phaseTimeRemaining > 1 then
    { s with phaseTimeRemaining := s.phaseTimeRemaining - 1 }
  else s

/-- Function `totalTimeTick` (lines 112-129). -/
def totalTimeTick (s : State) : State :=
  let s := { s with totalTimeElapsed := s.totalTimeElapsed + 1 }
  match s.timeLimit with
  | some limit =>
    if s.totalTimeElapsed ≥ limit then
      if ¬ (s.isEndingSequence = true) then
        { s with isEndingSequence := true }
      else s
    else s
  | none => s

/-- Function `startExercise` (lines 134-172). -/
def startExercise (s : State) : State :=
  let s := { s with isEndingSequence := false }
  let s := { s with totalTimeElapsed := 0 }
  let s := { s with currentPhaseIndex := -1 }
  (setTimeout Callback.getReady 1000 s).2

/-- The arrow function passed to `setTimeout` in `startExercise`
(lines 162-171). -/
def getReady (s : State) : State :=
  let s := nextPhase s
  let r := setInterval Callback.phaseTick 1000 s
  let s := { r.2 with phaseIntervalId := some r.1 }
  let r := setInterval Callback.totalTimeTick 1000 s
  { r.2 with totalTimerIntervalId := some r.1 }

/-- Body of a registered callback. -/
def runCallback : Callback → State → State
  | Callback.getReady => getReady
  | Callback.nextPhase => nextPhase
  | Callback.phaseTick => phaseTick
  | Callback.totalTimeTick => totalTimeTick

/-- The event loop delivers the pending timer `t`: a one-shot timer leaves the
timer table before its callback runs, a repeating one stays registered.
Delivering a timer that is not pending does nothing. -/
def fire (t : Timer) (s : State) : State :=
  if t ∈ s.timers then
    if t.repeating then runCallback t.callback s
    else runCallback t.callback { s with timers := s.timers.filter (fun u => u.id ≠ t.id) }
  else s

/-- Method `String.prototype.padStart(targetLength, fill)` for a one-character
fill string: the text is left-padded up to `targetLength`, never cut. -/
def padStart (text : String) (targetLength : Nat) (fill : Char) : String :=
  String.mk (List.replicate (targetLength - text.length) fill) ++ text

/-- Function `formatTime` (lines 41-45), on non-negative integer seconds:
`Math.floor(totalSeconds / 60)` is `totalSeconds / 60` and `toString()` is the
decimal rendering. -/
def formatTime (totalSeconds : Nat) : String :=
  let minutes := padStart (toString (totalSeconds / 60)) 2 '0'
  let seconds := padStart (toString (totalSeconds % 60)) 2 '0'
  minutes ++ ":" ++ seconds

/-! ## Offline asset cache (`src/service-worker.js`) -/

/-- The part of a `Request` the worker looks at. -/
structure Request where
  method : String
  url : String
  mode : String
  deriving DecidableEq, Repr

/-- The part of a `Response` the worker looks at, with its body. -/
structure Response where
  status : Nat
  type : String
  body : String
  deriving DecidableEq, Repr

/-- One named cache: the stored responses keyed by request URL. -/
abbrev Cache := List (String × Response)

/-- The browser `caches` object: the named caches in creation order. -/
abbrev CacheStorage := List (String × Cache)

/-- The network as seen by `fetch`: `none` is a rejected fetch. -/
abbrev Network := Request → Option Response

/-- The constant `CACHE_NAME`. -/
def CACHE_NAME : String := "box-breathing-cache-v1"

/-- The constant `urlsToCache`. -/
def urlsToCache : List String := ["/", "/index.html", "/app.js", "/manifest.json"]

/-- Browser `caches.match(url)`: the first stored response for the URL,
searching the caches in creation order; `none` is `undefined`. -/
def cachesMatch (storage : CacheStorage) (url : String) : Option Response :=
  storage.findSome? (fun entry => entry.2.lookup url)

/-- Browser `caches.open(name)`: the named cache is created empty when it does
not exist yet. -/
def cachesOpen (name : String) (storage : CacheStorage) : CacheStorage :=
  if storage.any (fun entry => entry.1 == name) then storage else storage ++ [(name, [])]

/-- Browser `cache.put(url, response)` on one cache: the entry for the URL is
replaced. -/
def cachePut (url : String) (response : Response) (c : Cache) : Cache :=
  c.filter (fun entry => entry.1 ≠ url) ++ [(url, response)]

/-- Applies an update to the cache called `name` inside the storage. -/
def updateCache (name : String) (f : Cache → Cache) (storage : CacheStorage) : CacheStorage :=
  storage.map (fun entry => if entry.1 = name then (entry.1, f entry.2) else entry)

/-- The stored response for `url` in the cache called `name`, if any. -/
def storedIn (name : String) (url : String) (storage : CacheStorage) : Option Response :=
  (storage.lookup name).bind (fun c => c.lookup url)

/-- The request `fetch(url)` builds from a plain URL. -/
def requestFor (url : String) : Request :=
  { method := "GET", url := url, mode := "cors" }

/-- Browser `Response.ok`: status in the range 200-299. -/
def Response.ok (r : Response) : Bool :=
  200 ≤ r.status && r.status ≤ 299

/-- The responses `cache.addAll(urls)` collects: every URL is fetched, and the
batch is rejected (`none`) when one fetch is rejected or answers with a
status outside 200-299. -/
def fetchAll (net : Network) (urls : List String) : Option (List (String × Response)) :=
  urls.mapM (fun url => ((net (requestFor url)).filter Response.ok).map (fun r => (url, r)))

/-- What the worker can change outside itself. -/
structure World where
  storage : CacheStorage
  skipWaitingCalled : Bool
  errorsLogged : Nat
  deriving DecidableEq, Repr

/-- A settled promise: fulfilled with a value or rejected with a reason. -/
abbrev Settled (α : Type) := Except String α

/-- Browser `cache.addAll(urls)` on the cache called `name`: atomic, either
every fetched response is stored or the promise is rejected and nothing is. -/
def cacheAddAll (net : Network) (name : String) (urls : List String) (w : World) : Settled Unit × World :=
  match fetchAll net urls with
  | some fetched =>
    (Except.ok (),
      { w with storage := updateCache name (fun c => fetched.foldl (fun acc e => cachePut e.1 e.2 acc) c) w.storage })
  | none => (Except.error "TypeError", w)

/-- Browser `self.skipWaiting()`. -/
def skipWaiting (w : World) : Settled Unit × World :=
  (Except.ok (), { w with skipWaitingCalled := true })

/-- The promise chain the `install` listener hands to `event.waitUntil`
(lines 21-36): `caches.open(...).then(addAll).then(skipWaiting).catch(log)`.
The result is the settled state of that promise and the world afterwards. -/
def install (net : Network) (w : World) : Settled Unit × World :=
  -- caches.open(CACHE_NAME)
  let w := { w with storage := cachesOpen CACHE_NAME w.storage }
  -- .then(cache => cache.addAll(urlsToCache))
  let p := cacheAddAll net CACHE_NAME urlsToCache w
  -- .then(() => self.skipWaiting())
  let p := match p.1 with
    | Except.ok _ => skipWaiting p.2
    | Except.error e => (Except.error e, p.2)
  -- .catch(error => { console.error(...) }): the handler returns undefined,
  -- so the promise it yields is fulfilled
  match p.1 with
  | Except.ok v => (Except.ok v, p.2)
  | Except.error _ => (Except.ok (), { p.2 with errorsLogged := p.2.errorsLogged + 1 })

/-- What the `fetch` listener does with the event: it returns without calling
`event.respondWith` (the browser handles the request itself), or it answers
with a response, where `none` is `undefined`. -/
inductive FetchResult where
  | notHandled
  | respondWith (response : Option Response)
  deriving DecidableEq, Repr

/-- Outcome of the `fetch` listener: its answer, the cache storage afterwards
and the requests it sent to the network. -/
structure FetchOutcome where
  result : FetchResult
  storage : CacheStorage
  networkRequests : List Request
  deriving DecidableEq, Repr

/-- The `fetch` listener (lines 63-125).  A network response is always a
`Response` object, so the test `!networkResponse` is false on this path.  The
write `caches.open(CACHE_NAME).then(cache => cache.put(...))` is started
without being awaited; the outcome records the storage once it has landed. -/
def handleFetch (net : Network) (storage : CacheStorage) (request : Request) : FetchOutcome :=
  if request.method ≠ "GET" then
    { result := FetchResult.notHandled, storage := storage, networkRequests := [] }
  else
    match cachesMatch storage request.url with
    | some cachedResponse =>
      { result := FetchResult.respondWith (some cachedResponse), storage := storage, networkRequests := [] }
    | none =>
      match net request with
      | some networkResponse =>
        if networkResponse.status ≠ 200 ∨
            (networkResponse.type ≠ "basic" ∧ networkResponse.type ≠ "cors") then
          { result := FetchResult.respondWith (some networkResponse)
            storage := storage
            networkRequests := [request] }
        else
          let responseToCache := networkResponse
          { result := FetchResult.respondWith (some networkResponse)
            storage := updateCache CACHE_NAME (cachePut request.url responseToCache) (cachesOpen CACHE_NAME storage)
            networkRequests := [request] }
      | none =>
        if request.mode = "navigate" then
          { result := FetchResult.respondWith (cachesMatch storage "/index.html")
            storage := storage
            networkRequests := [request] }
        else
          { result := FetchResult.respondWith none, storage := storage, networkRequests := [request] }



/-- Every pending phase-advance timeout is the one whose handle is recorded in
`animationTimeoutId`. -/
def Tracked (s : State) : Prop :=
  ∀ t ∈ s.timers, t.callback = Callback.nextPhase → s.animationTimeoutId = some t.id

instance (s : State) : Decidable (Tracked s) := by
  unfold Tracked; infer_instance

/-- A state a few seconds into a run: started with a 60 second limit, the
get-ready delay delivered, then one phase tick and one total tick. -/
def sampleRun : State :=
  totalTimeTick (phaseTick (fire ⟨1, Callback.getReady, 1000, false⟩
    (startExercise { initialState with timeLimit := some 60 })))

/-- A run with a 1 second limit that has reached the limit and is now in its
exhale phase: get-ready delivered, one total tick, two phase advances. -/
def endingRun : State :=
  fire ⟨5, Callback.nextPhase, 4000, false⟩ (fire ⟨2, Callback.nextPhase, 4000, false⟩
    (fire ⟨4, Callback.totalTimeTick, 1000, true⟩ (fire ⟨1, Callback.getReady, 1000, false⟩
      (startExercise { initialState with timeLimit := some 1 }))))

/-- The two per-second tickers. -/
inductive Tick where
  | phase
  | total
  deriving DecidableEq, Repr

/-- One delivery of a ticker. -/
def applyTick : Tick → State → State
  | Tick.phase => phaseTick
  | Tick.total => totalTimeTick

/-- A sequence of ticker deliveries, in order. -/
def applyTicks (ticks : List Tick) (s : State) : State :=
  ticks.foldl (fun acc t => applyTick t acc) s

/-- The state after `k` deliveries of the phase-advance timeout, where the
ticker deliveries `ticks j` happen before the delivery numbered `j`. -/
def afterAdvances (ticks : Nat → List Tick) : Nat → State → State
  | 0, s => s
  | k + 1, s => nextPhase (applyTicks (ticks k) (afterAdvances ticks k s))

/-- What can happen to the page: the handlers registered at the bottom of
`app.js` (lines 215-258) and the delivery of a pending timer. -/
inductive Event where
  | sliderInput (value : Int)
  | timeLimitClick (seconds : Int)
  | startClick
  | startNoLimitClick
  | stopClick
  | timer (t : Timer)
  deriving DecidableEq, Repr

/-- The handler run for one event. -/
def step : Event → State → State
  | Event.sliderInput value, s => { s with phaseDuration := value }
  | Event.timeLimitClick seconds, s => { s with timeLimit := some seconds }
  | Event.startClick, s => startExercise s
  | Event.startNoLimitClick, s => startExercise { s with timeLimit := none }
  | Event.stopClick, s => stopExercise s
  | Event.timer t, s => fire t s

/-- A sequence of events handled in order. -/
def run (events : List Event) (s : State) : State :=
  events.foldl (fun acc e => step e acc) s

/-- A run with a 1 second limit right after the limit was reached, still in its
first inhale phase. -/
def endingAtInhale : State :=
  fire ⟨4, Callback.totalTimeTick, 1000, true⟩ (fire ⟨1, Callback.getReady, 1000, false⟩
    (startExercise { initialState with timeLimit := some 1 }))

/-- A network on which `/app.js` cannot be fetched and everything else answers
200 from the same origin. -/
def appJsUnreachable : Network :=
  fun request => if request.url = "/app.js" then none else some ⟨200, "basic", request.url⟩

/-- A network that is down. -/
def offline : Network := fun _ => none

/-- A network that answers every request with the given response. -/
def answering (r : Response) : Network := fun _ => some r

/-- The world before the worker is installed: no caches. -/
def freshWorld : World :=
  { storage := [], skipWaitingCalled := false, errorsLogged := 0 }

/-- The cache storage after a fully successful install. -/
def installedStorage : CacheStorage :=
  (install (fun request => some ⟨200, "basic", request.url⟩) freshWorld).2.storage

/-! ## Theorems -/

theorem phaseAt_exhale_iff (i : Int) : phaseAt i = some "exhale" ↔ i = 2 := by
  unfold phaseAt
  constructor
  · intro h
    split at h
    · rename_i h0
      obtain ⟨n, rfl⟩ := Int.eq_ofNat_of_zero_le h0
      simp only [Int.toNat_ofNat] at h
      match n, h with
      | 0, h => simp [phases] at h
      | 1, h => simp [phases] at h
      | 2, _ => rfl
      | 3, h => simp [phases] at h
      | n + 4, h => simp [phases] at h
    · cases h
  · rintro rfl
    rfl

/-- C3: `totalTimeTick` adds exactly one second to the total; afterwards the
ending flag is set exactly when it was set before or a limit is selected and
the new total has reached it; the phase index, phase countdown, phase
duration, limit, timer handles and pending timers are untouched. -/
theorem totalTimeTick_spec (s : State) :
    (totalTimeTick s).totalTimeElapsed = s.totalTimeElapsed + 1 ∧
    ((totalTimeTick s).isEndingSequence = true ↔
      (s.isEndingSequence = true ∨
        ∃ limit, s.timeLimit = some limit ∧ s.totalTimeElapsed + 1 ≥ limit)) ∧
    (totalTimeTick s).currentPhaseIndex = s.currentPhaseIndex ∧
    (totalTimeTick s).phaseTimeRemaining = s.phaseTimeRemaining ∧
    (totalTimeTick s).phaseDuration = s.phaseDuration ∧
    (totalTimeTick s).timeLimit = s.timeLimit ∧
    (totalTimeTick s).timers = s.timers ∧
    (totalTimeTick s).phaseIntervalId = s.phaseIntervalId ∧
    (totalTimeTick s).totalTimerIntervalId = s.totalTimerIntervalId ∧
    (totalTimeTick s).animationTimeoutId = s.animationTimeoutId := by
  unfold totalTimeTick
  cases hl : s.timeLimit with
  | none => simp [hl]
  | some limit =>
    by_cases hge : s.totalTimeElapsed + 1 ≥ limit
    · by_cases he : s.isEndingSequence = true
      · simp [hl, hge, he]
      · simp [hl, hge, he]
    · simp [hl, hge]

/-- C10: `phaseTick` lowers the phase countdown by exactly one when it is above 1
and changes nothing otherwise, so a countdown of at least 1 stays at least 1;
the phase index, total, ending flag, timer handles and pending timers are
untouched, so it never triggers a phase change. -/
theorem phaseTick_spec (s : State) :
    (phaseTick s).phaseTimeRemaining =
      (if s.phaseTimeRemaining > 1 then s.phaseTimeRemaining - 1 else s.phaseTimeRemaining) ∧
    (1 ≤ s.phaseTimeRemaining → 1 ≤ (phaseTick s).phaseTimeRemaining) ∧
    (phaseTick s).currentPhaseIndex = s.currentPhaseIndex ∧
    (phaseTick s).totalTimeElapsed = s.totalTimeElapsed ∧
    (phaseTick s).isEndingSequence = s.isEndingSequence ∧
    (phaseTick s).timers = s.timers ∧
    (phaseTick s).phaseIntervalId = s.phaseIntervalId ∧
    (phaseTick s).totalTimerIntervalId = s.totalTimerIntervalId ∧
    (phaseTick s).animationTimeoutId = s.animationTimeoutId ∧
    (phaseTick s).phaseDuration = s.phaseDuration ∧
    (phaseTick s).timeLimit = s.timeLimit := by
  by_cases h : s.phaseTimeRemaining > 1
  · have e : phaseTick s = { s with phaseTimeRemaining := s.phaseTimeRemaining - 1 } := by
      unfold phaseTick; rw [if_pos h]
    rw [e, if_pos h]
    exact ⟨rfl, fun _ => by show 1 ≤ s.phaseTimeRemaining - 1; omega,
      rfl, rfl, rfl, rfl, rfl, rfl, rfl, rfl, rfl⟩
  · have e : phaseTick s = s := by
      unfold phaseTick; rw [if_neg h]
    rw [e, if_neg h]
    exact ⟨rfl, fun h1 => h1, rfl, rfl, rfl, rfl, rfl, rfl, rfl, rfl, rfl⟩

/-- Witness for C10 on the sample run, whose countdown stands at 3. -/
theorem phaseTick_spec_witness :
    sampleRun.phaseTimeRemaining = 3 ∧ (phaseTick sampleRun).phaseTimeRemaining = 2 ∧
      1 ≤ (phaseTick sampleRun).phaseTimeRemaining :=
  ⟨by decide, by
    have h := (phaseTick_spec sampleRun).1
    rw [h]; decide,
   (phaseTick_spec sampleRun).2.1 (by decide)⟩

theorem clearIfSet_timers (h : Option Nat) (s : State) :
    (clearIfSet h s).timers = s.timers.filter (fun t => h ≠ some t.id) := by
  cases h with
  | none => simp [clearIfSet]
  | some id =>
    simp only [clearIfSet, clearTimer]
    apply List.filter_congr
    intro t _
    by_cases e : t.id = id
    · simp [e]
    · have e2 : ¬ (id = t.id) := fun h => e h.symm
      simp [e, e2]

theorem clearIfSet_fields (h : Option Nat) (s : State) :
    (clearIfSet h s).phaseDuration = s.phaseDuration ∧
    (clearIfSet h s).timeLimit = s.timeLimit ∧
    (clearIfSet h s).totalTimeElapsed = s.totalTimeElapsed ∧
    (clearIfSet h s).phaseTimeRemaining = s.phaseTimeRemaining ∧
    (clearIfSet h s).currentPhaseIndex = s.currentPhaseIndex ∧
    (clearIfSet h s).phaseIntervalId = s.phaseIntervalId ∧
    (clearIfSet h s).totalTimerIntervalId = s.totalTimerIntervalId ∧
    (clearIfSet h s).animationTimeoutId = s.animationTimeoutId ∧
    (clearIfSet h s).isEndingSequence = s.isEndingSequence ∧
    (clearIfSet h s).lastId = s.lastId := by
  cases h <;> simp [clearIfSet, clearTimer]

theorem stopExercise_timers (s : State) :
    (stopExercise s).timers =
      s.timers.filter (fun t => s.phaseIntervalId ≠ some t.id ∧
        s.totalTimerIntervalId ≠ some t.id ∧ s.animationTimeoutId ≠ some t.id) := by
  simp only [stopExercise, clearIfSet_timers, clearIfSet_fields, List.filter_filter]
  apply List.filter_congr
  intro t _
  simp only [Bool.decide_and, Bool.and_comm, Bool.and_assoc, Bool.and_left_comm]

/-- C5 (amended): `stopExercise` puts the phase index back to -1, clears the
ending flag and the selected limit, cancels the timers held in the three
handles and sets the handles to null, schedules nothing, and leaves the total
elapsed time, the phase countdown and the phase duration as they were. -/
theorem stopExercise_spec (s : State) :
    (stopExercise s).currentPhaseIndex = -1 ∧
    (stopExercise s).isEndingSequence = false ∧
    (stopExercise s).timeLimit = none ∧
    (stopExercise s).phaseIntervalId = none ∧
    (stopExercise s).totalTimerIntervalId = none ∧
    (stopExercise s).animationTimeoutId = none ∧
    (∀ t ∈ (stopExercise s).timers, s.phaseIntervalId ≠ some t.id ∧
      s.totalTimerIntervalId ≠ some t.id ∧ s.animationTimeoutId ≠ some t.id) ∧
    (stopExercise s).timers.Sublist s.timers ∧
    (stopExercise s).totalTimeElapsed = s.totalTimeElapsed ∧
    (stopExercise s).phaseTimeRemaining = s.phaseTimeRemaining ∧
    (stopExercise s).phaseDuration = s.phaseDuration := by
  refine ⟨rfl, rfl, rfl, rfl, rfl, rfl, ?_, ?_, ?_, ?_, ?_⟩
  · intro t ht
    rw [stopExercise_timers] at ht
    simpa using (List.mem_filter.mp ht).2
  · rw [stopExercise_timers]
    exact List.filter_sublist _
  · simp [stopExercise, clearIfSet_fields]
  · simp [stopExercise, clearIfSet_fields]
  · simp [stopExercise, clearIfSet_fields]

/-- C5 as stated fails on the sample run: after `stopExercise` the total elapsed
time is still 1 and the phase countdown still 3, not 0. -/
theorem stopExercise_keeps_counters :
    (stopExercise sampleRun).totalTimeElapsed = 1 ∧
    (stopExercise sampleRun).phaseTimeRemaining = 3 ∧
    ¬ ((stopExercise sampleRun).totalTimeElapsed = 0 ∧
        (stopExercise sampleRun).phaseTimeRemaining = 0 ∧
        (stopExercise sampleRun).currentPhaseIndex = -1 ∧
        (stopExercise sampleRun).isEndingSequence = false ∧
        (stopExercise sampleRun).timeLimit = none ∧
        (stopExercise sampleRun).phaseIntervalId = none ∧
        (stopExercise sampleRun).totalTimerIntervalId = none ∧
        (stopExercise sampleRun).animationTimeoutId = none) := by
  decide

theorem nextPhase_stop (s : State)
    (h : s.isEndingSequence = true ∧ s.currentPhaseIndex = 2) :
    nextPhase s = stopExercise s := by
  unfold nextPhase
  rw [if_pos ⟨h.1, (phaseAt_exhale_iff _).mpr h.2⟩]

theorem nextPhase_advance (s : State)
    (h : ¬ (s.isEndingSequence = true ∧ s.currentPhaseIndex = 2)) :
    nextPhase s =
      { s with
        currentPhaseIndex := Int.tmod (s.currentPhaseIndex + 1) 4
        phaseTimeRemaining := s.phaseDuration
        animationTimeoutId := some (s.lastId + 1)
        timers := s.timers.filter (fun t => s.animationTimeoutId ≠ some t.id) ++
          [⟨s.lastId + 1, Callback.nextPhase, s.phaseDuration * 1000, false⟩]
        lastId := s.lastId + 1 } := by
  have h2 : ¬ (s.isEndingSequence = true ∧ phaseAt s.currentPhaseIndex = some "exhale") := by
    rw [phaseAt_exhale_iff]; exact h
  unfold nextPhase
  rw [if_neg h2]
  simp only [setTimeout, clearIfSet_timers, clearIfSet_fields, phases, List.length_cons,
    List.length_nil]
  cases ha : s.animationTimeoutId <;> simp [clearIfSet, clearTimer]

theorem applyTick_keeps (t : Tick) (s : State) :
    (applyTick t s).currentPhaseIndex = s.currentPhaseIndex ∧
    (s.isEndingSequence = true → (applyTick t s).isEndingSequence = true) ∧
    (applyTick t s).timers = s.timers ∧
    (applyTick t s).lastId = s.lastId := by
  cases t with
  | phase =>
    simp only [applyTick, phaseTick]
    split <;> simp
  | total =>
    simp only [applyTick, totalTimeTick]
    split
    · split
      · split <;> simp
      · simp
    · simp

theorem applyTicks_keeps (ticks : List Tick) (s : State) :
    (applyTicks ticks s).currentPhaseIndex = s.currentPhaseIndex ∧
    (s.isEndingSequence = true → (applyTicks ticks s).isEndingSequence = true) ∧
    (applyTicks ticks s).timers = s.timers ∧
    (applyTicks ticks s).lastId = s.lastId := by
  induction ticks generalizing s with
  | nil => simp [applyTicks]
  | cons t rest ih =>
    have h1 := applyTick_keeps t s
    have h2 := ih (applyTick t s)
    simp only [applyTicks, List.foldl_cons] at h2 ⊢
    refine ⟨h2.1.trans h1.1, fun h => h2.2.1 (h1.2.1 h), h2.2.2.1.trans h1.2.2.1,
      h2.2.2.2.trans h1.2.2.2⟩

theorem afterAdvances_ending (ticks : Nat → List Tick) (s : State)
    (hE : s.isEndingSequence = true)
    (hi : 0 ≤ s.currentPhaseIndex ∧ s.currentPhaseIndex ≤ 3) (k : Nat)
    (hk : (k : Int) ≤ (2 - s.currentPhaseIndex) % 4) :
    (afterAdvances ticks k s).isEndingSequence = true ∧
    (afterAdvances ticks k s).currentPhaseIndex = (s.currentPhaseIndex + k) % 4 := by
  induction k with
  | zero =>
    refine ⟨hE, ?_⟩
    show s.currentPhaseIndex = (s.currentPhaseIndex + ((0 : Nat) : Int)) % 4
    omega
  | succ k ih =>
    have ihk := ih (by omega)
    have hb := applyTicks_keeps (ticks k) (afterAdvances ticks k s)
    have hne : ¬ ((applyTicks (ticks k) (afterAdvances ticks k s)).isEndingSequence = true ∧
        (applyTicks (ticks k) (afterAdvances ticks k s)).currentPhaseIndex = 2) := by
      rw [hb.1, ihk.2]
      rintro ⟨_, h2⟩
      omega
    show (nextPhase (applyTicks (ticks k) (afterAdvances ticks k s))).isEndingSequence = true ∧
      (nextPhase (applyTicks (ticks k) (afterAdvances ticks k s))).currentPhaseIndex = _
    rw [nextPhase_advance _ hne]
    refine ⟨hb.2.1 ihk.1, ?_⟩
    show Int.tmod ((applyTicks (ticks k) (afterAdvances ticks k s)).currentPhaseIndex + 1) 4 = _
    rw [hb.1, ihk.2, Int.tmod_eq_emod (by omega) (by norm_num)]
    push_cast
    omega

/-- C4: from a state with the ending flag set and phase index `i` in 0..3,
whatever ticker deliveries come in between, the flag stays set, each of the
next (2 - i) mod 4 deliveries of `nextPhase` finds a phase other than exhale
and advances the cycle (index + 1 mod 4, a new phase-advance timer pending),
and the delivery after those finds the exhale phase and performs
`stopExercise`. -/
theorem ending_stops_at_next_exhale (s : State) (hE : s.isEndingSequence = true)
    (hi : 0 ≤ s.currentPhaseIndex ∧ s.currentPhaseIndex ≤ 3) (ticks : Nat → List Tick) :
    (∀ k : Nat, (k : Int) < (2 - s.currentPhaseIndex) % 4 →
      (applyTicks (ticks k) (afterAdvances ticks k s)).isEndingSequence = true ∧
      (applyTicks (ticks k) (afterAdvances ticks k s)).currentPhaseIndex ≠ 2 ∧
      (afterAdvances ticks (k + 1) s).currentPhaseIndex =
        ((applyTicks (ticks k) (afterAdvances ticks k s)).currentPhaseIndex + 1) % 4 ∧
      (afterAdvances ticks (k + 1) s).isEndingSequence = true ∧
      (afterAdvances ticks (k + 1) s).animationTimeoutId =
        some ((afterAdvances ticks k s).lastId + 1) ∧
      (⟨(afterAdvances ticks k s).lastId + 1, Callback.nextPhase,
          (applyTicks (ticks k) (afterAdvances ticks k s)).phaseDuration * 1000, false⟩ : Timer) ∈
        (afterAdvances ticks (k + 1) s).timers) ∧
    (∀ n : Nat, (n : Int) = (2 - s.currentPhaseIndex) % 4 →
      (applyTicks (ticks n) (afterAdvances ticks n s)).isEndingSequence = true ∧
      (applyTicks (ticks n) (afterAdvances ticks n s)).currentPhaseIndex = 2 ∧
      afterAdvances ticks (n + 1) s =
        stopExercise (applyTicks (ticks n) (afterAdvances ticks n s))) := by
  constructor
  · intro k hk
    have ihk := afterAdvances_ending ticks s hE hi k (by omega)
    have hb := applyTicks_keeps (ticks k) (afterAdvances ticks k s)
    have hidx : (applyTicks (ticks k) (afterAdvances ticks k s)).currentPhaseIndex ≠ 2 := by
      rw [hb.1, ihk.2]; omega
    have hne : ¬ ((applyTicks (ticks k) (afterAdvances ticks k s)).isEndingSequence = true ∧
        (applyTicks (ticks k) (afterAdvances ticks k s)).currentPhaseIndex = 2) :=
      fun h => hidx h.2
    have hnext : afterAdvances ticks (k + 1) s =
        nextPhase (applyTicks (ticks k) (afterAdvances ticks k s)) := rfl
    have hge : 0 ≤ (applyTicks (ticks k) (afterAdvances ticks k s)).currentPhaseIndex := by
      rw [hb.1, ihk.2]; omega
    rw [hnext, nextPhase_advance _ hne]
    refine ⟨hb.2.1 ihk.1, hidx, ?_, hb.2.1 ihk.1, ?_, ?_⟩
    · exact Int.tmod_eq_emod (by omega) (by norm_num)
    · show some ((applyTicks (ticks k) (afterAdvances ticks k s)).lastId + 1) = _
      rw [hb.2.2.2]
    · rw [← hb.2.2.2]
      simp
  · intro n hn
    have ihn := afterAdvances_ending ticks s hE hi n (by omega)
    have hb := applyTicks_keeps (ticks n) (afterAdvances ticks n s)
    have hidx : (applyTicks (ticks n) (afterAdvances ticks n s)).currentPhaseIndex = 2 := by
      rw [hb.1, ihn.2]; omega
    exact ⟨hb.2.1 ihn.1, hidx, nextPhase_stop _ ⟨hb.2.1 ihn.1, hidx⟩⟩

/-- Witness for C4 on `endingAtInhale` (index 0, so two advances, then the
stop), with a phase tick and a total tick before every delivery. -/
theorem ending_stops_at_next_exhale_witness :
    endingAtInhale.isEndingSequence = true ∧ endingAtInhale.currentPhaseIndex = 0 ∧
    (afterAdvances (fun _ => [Tick.phase, Tick.total]) 1 endingAtInhale).currentPhaseIndex =
      (0 + 1) % 4 ∧
    afterAdvances (fun _ => [Tick.phase, Tick.total]) 3 endingAtInhale =
      stopExercise (applyTicks [Tick.phase, Tick.total]
        (afterAdvances (fun _ => [Tick.phase, Tick.total]) 2 endingAtInhale)) :=
  ⟨by decide, by decide,
    by
      have h := ((ending_stops_at_next_exhale endingAtInhale (by decide) (by decide)
        (fun _ => [Tick.phase, Tick.total])).1 0 (by decide)).2.2.1
      rw [h]
      decide,
    ((ending_stops_at_next_exhale endingAtInhale (by decide) (by decide)
      (fun _ => [Tick.phase, Tick.total])).2 2 (by decide)).2.2⟩

theorem totalTimeTick_fields (s : State) :
    (totalTimeTick s).timers = s.timers ∧
    (totalTimeTick s).animationTimeoutId = s.animationTimeoutId := by
  simp only [totalTimeTick]
  split
  · split
    · split <;> simp
    · simp
  · simp

theorem tracked_stopExercise (s : State) (h : Tracked s) : Tracked (stopExercise s) := by
  intro t ht hc
  rw [stopExercise_timers] at ht
  obtain ⟨hmem, hp⟩ := List.mem_filter.mp ht
  have := h t hmem hc
  simp [this] at hp

theorem tracked_nextPhase (s : State) (h : Tracked s) : Tracked (nextPhase s) := by
  by_cases hg : s.isEndingSequence = true ∧ s.currentPhaseIndex = 2
  · rw [nextPhase_stop s hg]
    exact tracked_stopExercise s h
  · rw [nextPhase_advance s hg]
    intro t ht hc
    simp only [List.mem_append, List.mem_filter, List.mem_singleton] at ht
    rcases ht with ⟨hmem, hp⟩ | rfl
    · have := h t hmem hc
      simp [this] at hp
    · rfl

theorem tracked_phaseTick (s : State) (h : Tracked s) : Tracked (phaseTick s) := by
  unfold phaseTick
  split
  · exact h
  · exact h

theorem tracked_totalTimeTick (s : State) (h : Tracked s) : Tracked (totalTimeTick s) := by
  intro t ht hc
  have e := totalTimeTick_fields s
  rw [e.1] at ht
  rw [e.2]
  exact h t ht hc

theorem tracked_getReady (s : State) (h : Tracked s) : Tracked (getReady s) := by
  have hn := tracked_nextPhase s h
  intro t ht hc
  simp only [getReady, setInterval, List.mem_append, List.mem_singleton] at ht
  rcases ht with (hmem | rfl) | rfl
  · exact hn t hmem hc
  · cases hc
  · cases hc

theorem tracked_startExercise (s : State) (h : Tracked s) : Tracked (startExercise s) := by
  intro t ht hc
  simp only [startExercise, setTimeout, List.mem_append, List.mem_singleton] at ht
  rcases ht with hmem | rfl
  · exact h t hmem hc
  · cases hc

theorem tracked_fire (t : Timer) (s : State) (h : Tracked s) : Tracked (fire t s) := by
  have hrun : ∀ (c : Callback) (u : State), Tracked u → Tracked (runCallback c u) := by
    intro c u hu
    cases c
    · exact tracked_getReady u hu
    · exact tracked_nextPhase u hu
    · exact tracked_phaseTick u hu
    · exact tracked_totalTimeTick u hu
  unfold fire
  split
  · split
    · exact hrun _ _ h
    · apply hrun
      intro u hu hc
      exact h u (List.mem_filter.mp hu).1 hc
  · exact h

theorem tracked_step (e : Event) (s : State) (h : Tracked s) : Tracked (step e s) := by
  cases e with
  | sliderInput value => exact h
  | timeLimitClick seconds => exact h
  | startClick => exact tracked_startExercise s h
  | startNoLimitClick => exact tracked_startExercise _ h
  | stopClick => exact tracked_stopExercise s h
  | timer t => exact tracked_fire t s h

/-- In every state the page can reach from its initial state, the pending
phase-advance timeouts are tracked by `animationTimeoutId`. -/
theorem tracked_run (events : List Event) : Tracked (run events initialState) := by
  have key : ∀ (es : List Event) (s : State), Tracked s → Tracked (run es s) := by
    intro es
    induction es with
    | nil => intro s h; exact h
    | cons e rest ih =>
      intro s h
      exact ih (step e s) (tracked_step e s h)
  apply key
  intro t ht
  cases ht

/-- C2: `nextPhase` in a state with the ending flag set and the exhale phase
current does exactly what `stopExercise` does and schedules nothing.  In every
other state it moves the phase index to (index + 1) mod 4, resets the phase
countdown to the phase duration, leaves total, limit, ending flag and phase
duration alone, and records a new one-shot timer for itself with delay
`phaseDuration * 1000` ms; when the pending phase-advance timers were tracked
by `animationTimeoutId`, as they are in every state the page can reach, that
new timer is the only pending one. -/
theorem nextPhase_spec (s : State) :
    (s.isEndingSequence = true ∧ s.currentPhaseIndex = 2 →
      nextPhase s = stopExercise s ∧ (nextPhase s).timers.Sublist s.timers) ∧
    (¬ (s.isEndingSequence = true ∧ s.currentPhaseIndex = 2) →
      (nextPhase s).currentPhaseIndex = Int.tmod (s.currentPhaseIndex + 1) 4 ∧
      (-1 ≤ s.currentPhaseIndex →
        (nextPhase s).currentPhaseIndex = (s.currentPhaseIndex + 1) % 4) ∧
      (nextPhase s).phaseTimeRemaining = s.phaseDuration ∧
      (nextPhase s).totalTimeElapsed = s.totalTimeElapsed ∧
      (nextPhase s).timeLimit = s.timeLimit ∧
      (nextPhase s).isEndingSequence = s.isEndingSequence ∧
      (nextPhase s).phaseDuration = s.phaseDuration ∧
      (nextPhase s).animationTimeoutId = some (s.lastId + 1) ∧
      (⟨s.lastId + 1, Callback.nextPhase, s.phaseDuration * 1000, false⟩ : Timer) ∈
        (nextPhase s).timers ∧
      (Tracked s →
        (nextPhase s).timers.filter (fun t => t.callback = Callback.nextPhase) =
          [⟨s.lastId + 1, Callback.nextPhase, s.phaseDuration * 1000, false⟩]) ∧
      ((∃ events, s = run events initialState) →
        (nextPhase s).timers.filter (fun t => t.callback = Callback.nextPhase) =
          [⟨s.lastId + 1, Callback.nextPhase, s.phaseDuration * 1000, false⟩])) := by
  constructor
  · intro h
    refine ⟨nextPhase_stop s h, ?_⟩
    rw [nextPhase_stop s h]
    rw [stopExercise_timers]
    exact List.filter_sublist _
  · intro h
    rw [nextPhase_advance s h]
    have key : Tracked s →
        ({ s with
            currentPhaseIndex := Int.tmod (s.currentPhaseIndex + 1) 4
            phaseTimeRemaining := s.phaseDuration
            animationTimeoutId := some (s.lastId + 1)
            timers := s.timers.filter (fun t => s.animationTimeoutId ≠ some t.id) ++
              [⟨s.lastId + 1, Callback.nextPhase, s.phaseDuration * 1000, false⟩]
            lastId := s.lastId + 1 } : State).timers.filter
          (fun t => t.callback = Callback.nextPhase) =
          [⟨s.lastId + 1, Callback.nextPhase, s.phaseDuration * 1000, false⟩] := by
      intro hT
      simp only [List.filter_append, List.filter_filter]
      have hnil : s.timers.filter (fun t => (decide (t.callback = Callback.nextPhase) &&
          decide (s.animationTimeoutId ≠ some t.id))) = [] := by
        rw [List.filter_eq_nil_iff]
        intro t ht
        have := hT t ht
        by_cases hc : t.callback = Callback.nextPhase
        · simp [hc, this hc]
        · simp [hc]
      rw [hnil]
      simp
    refine ⟨rfl, ?_, rfl, rfl, rfl, rfl, rfl, rfl, ?_, key, ?_⟩
    · intro hi
      show Int.tmod (s.currentPhaseIndex + 1) 4 = (s.currentPhaseIndex + 1) % 4
      exact Int.tmod_eq_emod (by omega) (by norm_num)
    · simp
    · rintro ⟨events, rfl⟩
      exact key (tracked_run events)

/-- Witness for C2: the stop branch on `endingRun` (ending flag set, exhale
current) and the advance branch on `sampleRun` (inhale current, timers
tracked). -/
theorem nextPhase_spec_witness :
    (nextPhase endingRun = stopExercise endingRun ∧
      (nextPhase endingRun).timers.Sublist endingRun.timers) ∧
    ((nextPhase sampleRun).currentPhaseIndex = 1 ∧
      (nextPhase sampleRun).timers.filter (fun t => t.callback = Callback.nextPhase) =
        [⟨5, Callback.nextPhase, 4000, false⟩]) :=
  ⟨(nextPhase_spec endingRun).1 (by decide),
    by
      have h := (nextPhase_spec sampleRun).2 (by decide)
      exact ⟨h.2.1 (by decide), h.2.2.2.2.2.2.2.2.2.1 (by decide)⟩⟩

set_option maxRecDepth 100000 in
theorem padStart_two_digits :
    ∀ m : Nat, m < 100 →
      padStart (toString m) 2 '0' =
        String.mk [Char.ofNat (48 + m / 10), Char.ofNat (48 + m % 10)] := by
  decide

theorem toDigitsCore_length_gt (f n : Nat) (l : List Char) :
    l.length < (Nat.toDigitsCore 10 (f + 1) n l).length := by
  induction f generalizing n l with
  | zero =>
    simp only [Nat.toDigitsCore]
    split <;> simp
  | succ f ih =>
    rw [Nat.toDigitsCore]
    split
    · simp
    · have := ih (n / 10) (Nat.digitChar (n % 10) :: l)
      simp only [List.length_cons] at this
      omega

theorem toString_length_ge_three (m : Nat) (h : 100 ≤ m) : 3 ≤ (toString m).length := by
  obtain ⟨k, rfl⟩ : ∃ k, m = k + 2 := ⟨m - 2, by omega⟩
  have h1 : (k + 2) / 10 ≠ 0 := by omega
  have h2 : (k + 2) / 10 / 10 ≠ 0 := by omega
  show 3 ≤ (Nat.toDigits 10 (k + 2)).asString.length
  have e : Nat.toDigits 10 (k + 2) =
      Nat.toDigitsCore 10 (k + 1) ((k + 2) / 10 / 10)
        [Nat.digitChar ((k + 2) / 10 % 10), Nat.digitChar ((k + 2) % 10)] := by
    simp only [Nat.toDigits, Nat.toDigitsCore, h1, h2, if_false]
  rw [e]
  have := toDigitsCore_length_gt k ((k + 2) / 10 / 10)
    [Nat.digitChar ((k + 2) / 10 % 10), Nat.digitChar ((k + 2) % 10)]
  simpa [List.asString, String.length] using this

theorem padStart_length (text : String) (n : Nat) (c : Char) :
    (padStart text n c).length = max n text.length := by
  simp only [padStart, String.length_append]
  show (List.replicate (n - text.length) c).length + text.length = _
  rw [List.length_replicate]
  omega

theorem formatTime_length (n : Nat) :
    (formatTime n).length = max 2 (toString (n / 60)).length + 3 := by
  have hs : (padStart (toString (n % 60)) 2 '0').length = 2 := by
    rw [padStart_two_digits _ (by omega)]
    rfl
  simp only [formatTime, String.length_append, padStart_length (toString (n / 60)), hs]
  rfl

/-- C6 (amended): below 6000 seconds `formatTime` is exactly the five characters
MM:SS, the minutes `totalSeconds / 60` and the seconds `totalSeconds % 60` each
as two zero-padded decimal digits; from 6000 seconds on the minutes need more
than two digits and the text is longer than five characters. -/
theorem formatTime_spec (totalSeconds : Nat) :
    (totalSeconds < 6000 →
      formatTime totalSeconds =
        String.mk [Char.ofNat (48 + totalSeconds / 60 / 10),
          Char.ofNat (48 + totalSeconds / 60 % 10), ':',
          Char.ofNat (48 + totalSeconds % 60 / 10),
          Char.ofNat (48 + totalSeconds % 60 % 10)]) ∧
    ((formatTime totalSeconds).length = 5 ↔ totalSeconds < 6000) := by
  constructor
  · intro h
    simp only [formatTime]
    rw [padStart_two_digits _ (by omega), padStart_two_digits (totalSeconds % 60) (by omega)]
    rfl
  · rw [formatTime_length]
    constructor
    · intro h
      by_contra hn
      have := toString_length_ge_three (totalSeconds / 60) (by omega)
      omega
    · intro h
      have e := padStart_two_digits (totalSeconds / 60) (by omega)
      have hl := padStart_length (toString (totalSeconds / 60)) 2 '0'
      rw [e] at hl
      have h2 : (String.mk [Char.ofNat (48 + totalSeconds / 60 / 10),
          Char.ofNat (48 + totalSeconds / 60 % 10)]).length = 2 := rfl
      omega

/-- Witness for C6 (amended) at 3599 seconds. -/
theorem formatTime_spec_witness :
    formatTime 3599 = "59:59" ∧ (formatTime 3599).length = 5 :=
  ⟨(formatTime_spec 3599).1 (by decide), (formatTime_spec 3599).2.mpr (by decide)⟩

/-- C6 as stated fails at 6000 seconds: the text is "100:00", six characters. -/
theorem formatTime_six_chars :
    formatTime 6000 = "100:00" ∧ (formatTime 6000).length = 6 ∧
      ¬ ((formatTime 6000).length = 5) := by
  decide

/-- C1 (the code at the failing input): after a start click followed at once by
a stop click the get-ready timeout is still pending, and its delivery moves
the phase index to 0, sets the countdown and registers three more timers. -/
theorem stop_after_start_leaves_timer :
    (run [Event.startClick, Event.stopClick] initialState).timers =
      [⟨1, Callback.getReady, 1000, false⟩] ∧
    (run [Event.startClick, Event.stopClick, Event.timer ⟨1, Callback.getReady, 1000, false⟩]
      initialState).currentPhaseIndex = 0 ∧
    (run [Event.startClick, Event.stopClick, Event.timer ⟨1, Callback.getReady, 1000, false⟩]
      initialState).phaseTimeRemaining = 4 ∧
    (run [Event.startClick, Event.stopClick, Event.timer ⟨1, Callback.getReady, 1000, false⟩]
      initialState).timers =
      [⟨2, Callback.nextPhase, 4000, false⟩, ⟨3, Callback.phaseTick, 1000, true⟩,
        ⟨4, Callback.totalTimeTick, 1000, true⟩] ∧
    (run [Event.startClick, Event.stopClick, Event.timer ⟨1, Callback.getReady, 1000, false⟩,
      Event.timer ⟨4, Callback.totalTimeTick, 1000, true⟩] initialState).totalTimeElapsed = 1 := by
  decide

/-- The promise handed to `event.waitUntil` is fulfilled whatever the network
does: the `catch` handler turns a rejection into a fulfilled promise. -/
theorem install_fulfilled (net : Network) (w : World) : (install net w).1 = Except.ok () := by
  unfold install cacheAddAll skipWaiting
  cases fetchAll net urlsToCache <;> rfl

/-- When the batch is rejected the install step stores nothing beyond opening
the cache and does not call `skipWaiting`. -/
theorem install_rejected_batch (net : Network) (w : World)
    (h : fetchAll net urlsToCache = none) :
    (install net w).2.storage = cachesOpen CACHE_NAME w.storage ∧
    (install net w).2.skipWaitingCalled = w.skipWaitingCalled := by
  unfold install cacheAddAll skipWaiting
  rw [h]
  exact ⟨rfl, rfl⟩

/-- C7 (the code at the failing input): with `/app.js` unreachable the batch is
rejected, nothing is stored and `skipWaiting` is not called, yet the install
promise is fulfilled, so the failure is logged and not reported. -/
theorem install_swallows_failure :
    fetchAll appJsUnreachable urlsToCache = none ∧
    (install appJsUnreachable freshWorld).1 = Except.ok () ∧
    (install appJsUnreachable freshWorld).2.skipWaitingCalled = false ∧
    (install appJsUnreachable freshWorld).2.errorsLogged = 1 ∧
    (install appJsUnreachable freshWorld).2.storage = [(CACHE_NAME, [])] := by
  refine ⟨by decide, rfl, by decide, by decide, by decide⟩

theorem mem_of_lookup_eq_some {β : Type} (name : String) (l : List (String × β)) (b : β)
    (h : l.lookup name = some b) : (name, b) ∈ l := by
  induction l with
  | nil => simp at h
  | cons e rest ih =>
    obtain ⟨k, v⟩ := e
    by_cases hk : name = k
    · subst hk
      simp [List.lookup] at h
      subst h
      simp
    · have hb : (name == k) = false := by simpa using hk
      simp only [List.lookup, hb] at h
      exact List.mem_cons_of_mem _ (ih h)

theorem storedIn_none_of_miss (storage : CacheStorage) (name url : String)
    (h : cachesMatch storage url = none) : storedIn name url storage = none := by
  unfold storedIn
  cases hl : storage.lookup name with
  | none => rfl
  | some c =>
    have hm := mem_of_lookup_eq_some name storage c hl
    unfold cachesMatch at h
    rw [List.findSome?_eq_none_iff] at h
    exact h _ hm

theorem cachePut_lookup (url : String) (r : Response) (c : Cache) :
    (cachePut url r c).lookup url = some r := by
  unfold cachePut
  induction c with
  | nil => simp [List.lookup]
  | cons e rest ih =>
    obtain ⟨k, v⟩ := e
    by_cases hk : k = url
    · simp only [List.filter_cons, hk, ne_eq, not_true_eq_false, decide_False]
      exact ih
    · have hb : (url == k) = false := by simpa using fun h : url = k => hk h.symm
      simp only [List.filter_cons, hk, ne_eq, not_false_eq_true, decide_True, if_true,
        List.cons_append, List.lookup, hb]
      exact ih

theorem lookup_updateCache (name : String) (f : Cache → Cache) (storage : CacheStorage) :
    (updateCache name f storage).lookup name = (storage.lookup name).map f := by
  unfold updateCache
  induction storage with
  | nil => rfl
  | cons e rest ih =>
    obtain ⟨k, c⟩ := e
    by_cases hk : k = name
    · subst hk
      have e1 : (if (k, c).1 = k then ((k, c).1, f (k, c).2) else (k, c)) = (k, f c) :=
        if_pos rfl
      rw [List.map_cons, e1]
      simp [List.lookup]
    · have hb : (name == k) = false := by simpa using fun h : name = k => hk h.symm
      have e1 : (if (k, c).1 = name then ((k, c).1, f (k, c).2) else (k, c)) = (k, c) :=
        if_neg hk
      rw [List.map_cons, e1]
      simp only [List.lookup, hb]
      exact ih

theorem lookup_cachesOpen (name : String) (storage : CacheStorage) :
    ∃ c, (cachesOpen name storage).lookup name = some c := by
  unfold cachesOpen
  induction storage with
  | nil => exact ⟨[], by simp [List.lookup]⟩
  | cons e rest ih =>
    obtain ⟨k, c⟩ := e
    by_cases hk : k = name
    · subst hk
      exact ⟨c, by simp [List.lookup]⟩
    · have hb : (name == k) = false := by simpa using fun h : name = k => hk h.symm
      have hb2 : (k == name) = false := by simpa using hk
      obtain ⟨c2, hc2⟩ := ih
      refine ⟨c2, ?_⟩
      simp only [List.any_cons, hb2, Bool.false_or] at hc2 ⊢
      split
      · rename_i hany
        simp only [hany, if_true] at hc2
        simp only [List.lookup, hb]
        exact hc2
      · rename_i hany
        simp only [hany] at hc2
        simp only [List.cons_append, List.lookup, hb]
        exact hc2

theorem storedIn_after_put (name url : String) (r : Response) (storage : CacheStorage) :
    storedIn name url (updateCache name (cachePut url r) (cachesOpen name storage)) = some r := by
  unfold storedIn
  rw [lookup_updateCache]
  obtain ⟨c, hc⟩ := lookup_cachesOpen name storage
  rw [hc]
  exact cachePut_lookup url r c

/-- C8: for a GET request that misses the cache and is answered by the network
with `r`, the listener answers with `r` itself after a single network request,
and afterwards `r` is stored under the request in the `CACHE_NAME` cache
exactly when its status is 200 and its type is basic or cors; for every other
response the storage is unchanged. -/
theorem handleFetch_network_success (net : Network) (storage : CacheStorage)
    (request : Request) (r : Response)
    (hGet : request.method = "GET")
    (hMiss : cachesMatch storage request.url = none)
    (hNet : net request = some r) :
    (handleFetch net storage request).result = FetchResult.respondWith (some r) ∧
    (handleFetch net storage request).networkRequests = [request] ∧
    (storedIn CACHE_NAME request.url (handleFetch net storage request).storage = some r ↔
      (r.status = 200 ∧ (r.type = "basic" ∨ r.type = "cors"))) ∧
    ((r.status = 200 ∧ (r.type = "basic" ∨ r.type = "cors")) →
      (handleFetch net storage request).storage =
        updateCache CACHE_NAME (cachePut request.url r) (cachesOpen CACHE_NAME storage)) ∧
    (¬ (r.status = 200 ∧ (r.type = "basic" ∨ r.type = "cors")) →
      (handleFetch net storage request).storage = storage) := by
  by_cases hc : r.status = 200 ∧ (r.type = "basic" ∨ r.type = "cors")
  · have hg : ¬ (r.status ≠ 200 ∨ (r.type ≠ "basic" ∧ r.type ≠ "cors")) := by
      rcases hc with ⟨h1, h2 | h2⟩ <;> simp [h1, h2]
    have e : handleFetch net storage request =
        { result := FetchResult.respondWith (some r)
          storage := updateCache CACHE_NAME (cachePut request.url r) (cachesOpen CACHE_NAME storage)
          networkRequests := [request] } := by
      simp only [handleFetch, hGet, ne_eq, not_true_eq_false, if_false, hMiss, hNet, hg]
    rw [e]
    refine ⟨rfl, rfl, ?_, fun _ => rfl, fun h => absurd hc h⟩
    exact ⟨fun _ => hc, fun _ => storedIn_after_put _ _ _ _⟩
  · have hg : r.status ≠ 200 ∨ (r.type ≠ "basic" ∧ r.type ≠ "cors") := by
      by_cases h1 : r.status = 200
      · right
        exact ⟨fun h => hc ⟨h1, Or.inl h⟩, fun h => hc ⟨h1, Or.inr h⟩⟩
      · exact Or.inl h1
    have e : handleFetch net storage request =
        { result := FetchResult.respondWith (some r)
          storage := storage
          networkRequests := [request] } := by
      simp only [handleFetch, hGet, ne_eq, not_true_eq_false, if_false, hMiss, hNet]
      rw [if_pos (by simpa using hg)]
    rw [e]
    refine ⟨rfl, rfl, ?_, fun h => absurd h hc, fun _ => rfl⟩
    constructor
    · intro h
      rw [storedIn_none_of_miss storage CACHE_NAME request.url hMiss] at h
      cases h
    · intro h
      exact absurd h hc

/-- Witness for C8: on the installed storage a stylesheet request answered with
a 200 cors response is stored, and one answered with an opaque response is
passed through with the storage unchanged. -/
theorem handleFetch_network_success_witness :
    ((handleFetch (answering ⟨200, "cors", "body"⟩) installedStorage
        ⟨"GET", "/style.css", "no-cors"⟩).result =
        FetchResult.respondWith (some ⟨200, "cors", "body"⟩) ∧
      storedIn CACHE_NAME "/style.css"
        (handleFetch (answering ⟨200, "cors", "body"⟩) installedStorage
          ⟨"GET", "/style.css", "no-cors"⟩).storage = some ⟨200, "cors", "body"⟩) ∧
    (handleFetch (answering ⟨0, "opaque", ""⟩) installedStorage
        ⟨"GET", "/style.css", "no-cors"⟩).storage = installedStorage :=
  ⟨by
      have h := handleFetch_network_success (answering ⟨200, "cors", "body"⟩) installedStorage
        ⟨"GET", "/style.css", "no-cors"⟩ ⟨200, "cors", "body"⟩ rfl (by decide) rfl
      exact ⟨h.1, h.2.2.1.mpr (by decide)⟩,
    (handleFetch_network_success (answering ⟨0, "opaque", ""⟩) installedStorage
      ⟨"GET", "/style.css", "no-cors"⟩ ⟨0, "opaque", ""⟩ rfl (by decide) rfl).2.2.2.2
      (by decide)⟩

/-- C9: for a GET request that misses the cache and whose network fetch is
rejected, a navigation is answered with what is stored for `/index.html`, any
other request is answered with no response; the storage is unchanged and the
network was asked exactly once. -/
theorem handleFetch_network_failure (net : Network) (storage : CacheStorage)
    (request : Request)
    (hGet : request.method = "GET")
    (hMiss : cachesMatch storage request.url = none)
    (hNet : net request = none) :
    (request.mode = "navigate" →
      (handleFetch net storage request).result =
        FetchResult.respondWith (cachesMatch storage "/index.html")) ∧
    (∀ r, request.mode = "navigate" → cachesMatch storage "/index.html" = some r →
      (handleFetch net storage request).result = FetchResult.respondWith (some r)) ∧
    (request.mode ≠ "navigate" →
      (handleFetch net storage request).result = FetchResult.respondWith none) ∧
    (handleFetch net storage request).storage = storage ∧
    (handleFetch net storage request).networkRequests = [request] := by
  by_cases hm : request.mode = "navigate"
  · have e : handleFetch net storage request =
        { result := FetchResult.respondWith (cachesMatch storage "/index.html")
          storage := storage
          networkRequests := [request] } := by
      simp only [handleFetch, hGet, ne_eq, not_true_eq_false, if_false, hMiss, hNet, hm, if_true]
    rw [e]
    exact ⟨fun _ => rfl, fun r _ hr => by rw [hr], fun h => absurd hm h, rfl, rfl⟩
  · have e : handleFetch net storage request =
        { result := FetchResult.respondWith none
          storage := storage
          networkRequests := [request] } := by
      simp only [handleFetch, hGet, ne_eq, not_true_eq_false, if_false, hMiss, hNet, hm]
    rw [e]
    exact ⟨fun h => absurd h hm, fun r h _ => absurd h hm, fun _ => rfl, rfl, rfl⟩

/-- Witness for C9: offline, on the installed storage, a navigation to an
uncached page gets the stored `/index.html` and a stylesheet request gets no
response. -/
theorem handleFetch_network_failure_witness :
    (handleFetch offline installedStorage ⟨"GET", "/settings", "navigate"⟩).result =
      FetchResult.respondWith (some ⟨200, "basic", "/index.html"⟩) ∧
    (handleFetch offline installedStorage ⟨"GET", "/style.css", "no-cors"⟩).result =
      FetchResult.respondWith none ∧
    (handleFetch offline installedStorage ⟨"GET", "/settings", "navigate"⟩).storage =
      installedStorage :=
  ⟨(handleFetch_network_failure offline installedStorage ⟨"GET", "/settings", "navigate"⟩
      rfl (by decide) rfl).2.1 _ rfl (by decide),
    (handleFetch_network_failure offline installedStorage ⟨"GET", "/style.css", "no-cors"⟩
      rfl (by decide) rfl).2.2.1 (by decide),
    (handleFetch_network_failure offline installedStorage ⟨"GET", "/settings", "navigate"⟩
      rfl (by decide) rfl).2.2.2.1⟩

end BoxBreathing
